import Mathlib

/-!
Verification of the tool registry and dispatch engine of the
`clickup-mcp-server-better` repository (`src/server.ts`,
`src/services/shared.ts`, `src/services/clickup/custom.ts` and the
`custom-api` tool module).

The TypeScript code is shallowly embedded: JavaScript objects whose shape
the code inspects become Lean structures with `Option` fields marking key
presence, stateful code becomes explicit state passing, and thrown
protocol-error objects become explicit error values.
-/

namespace ClickUpServer

/-- The single-quote character, used inside dispatcher error messages
such as the string: Tool (quote)name(quote) is disabled. -/
def sq : String := String.singleton (Char.ofNat 39)

/-- The `ENABLED_TOOLS` / `DISABLED_TOOLS` part of the configuration
snapshot consumed by `server.ts` (fields `config.enabledTools` and
`config.disabledTools`, each a list of tool names). -/
structure Config where
  enabledTools : List String
  disabledTools : List String
deriving DecidableEq

/-- Embedding of `isToolEnabled` (src/server.ts lines 128-141):
allow-list takes precedence when non-empty, else deny-list when
non-empty, else every tool is enabled. -/
def isToolEnabled (config : Config) (toolName : String) : Bool :=
  if config.enabledTools.length > 0 then
    config.enabledTools.contains toolName
  else if config.disabledTools.length > 0 then
    !(config.disabledTools.contains toolName)
  else
    true

/-- A protocol-level error object thrown by the CallTool handler:
a `{ code, message }` literal (src/server.ts lines 337-340, 453-468). -/
structure ProtocolError where
  code : Int
  message : String
deriving DecidableEq

/-- Outcome of invoking a bound handler: an opaque success payload, or a
raised condition carrying a `name` discriminator and a `message`
(the Handler Binding interface of the dispatcher). -/
inductive HandlerOutcome where
  | ok (result : Nat)
  | raise (errName : String) (errMessage : String)
deriving DecidableEq

/-- Result of one CallTool dispatch: a fulfilled response, a thrown
`{ code, message }` protocol-error object, or a raw handler-raised
condition that escapes the dispatcher without being rewrapped (the
switch returns the async handler's promise without awaiting it inside
the try block, so a handler rejection bypasses the catch block). -/
inductive CallOutcome where
  | success (result : Nat)
  | protocolError (e : ProtocolError)
  | uncaught (errName : String) (errMessage : String)
deriving DecidableEq

structure DispatchResult where
  outcome : CallOutcome
  invokedHandlers : List String
deriving DecidableEq

/-- The closed set of case labels of the dispatch `switch` statement in
the CallTool handler (src/server.ts lines 345-441), in source order. -/
def knownToolNames : List String :=
  ["get_workspace_hierarchy", "create_task", "update_task", "move_task",
   "duplicate_task", "get_task", "delete_task", "get_task_comments",
   "create_task_comment", "attach_task_file", "create_bulk_tasks",
   "update_bulk_tasks", "move_bulk_tasks", "delete_bulk_tasks",
   "get_workspace_tasks", "create_list", "create_list_in_folder",
   "get_list", "update_list", "delete_list", "create_folder",
   "get_folder", "update_folder", "delete_folder", "get_space_tags",
   "add_tag_to_task", "remove_tag_from_task", "get_task_time_entries",
   "start_time_tracking", "stop_time_tracking", "add_time_entry",
   "delete_time_entry", "get_current_time_entry", "add_task_dependency",
   "remove_task_dependency", "get_task_dependencies",
   "add_bulk_dependencies", "create_document", "get_document",
   "list_documents", "list_document_pages", "get_document_pages",
   "create_document_page", "update_document_page",
   "get_workspace_members", "find_member_by_name", "resolve_assignees",
   "call_clickup_api"]

/-- The `catch` block of the CallTool handler (src/server.ts lines
448-469): a caught condition named `UnknownToolError` is rewrapped as
code -32601 with message `Method not found: <tool>`; one named
`ValidationError` as code -32602 with message
`Invalid params for tool <tool>: <detail>`; anything else as code
-32000 with message `Error executing tool <tool>: <detail>`. Only the
synchronous default-case throw ever reaches this block: the handlers
are asynchronous and their promises are returned without `await`, so
handler rejections never enter the catch. -/
def rewrapCaughtError (toolName errName errMessage : String) : ProtocolError :=
  if errName == "UnknownToolError" then
    { code := -32601, message := "Method not found: " ++ toolName }
  else if errName == "ValidationError" then
    { code := -32602,
      message := "Invalid params for tool " ++ toolName ++ ": " ++ errMessage }
  else
    { code := -32000,
      message := "Error executing tool " ++ toolName ++ ": " ++ errMessage }

/-- The message of the protocol error thrown by the enablement check
(src/server.ts lines 333-335): it distinguishes allow-list rejection
from deny-list rejection. -/
def disabledReason (config : Config) (name : String) : String :=
  if config.enabledTools.length > 0 then
    "Tool " ++ sq ++ name ++ sq ++ " is not in the enabled tools list."
  else
    "Tool " ++ sq ++ name ++ sq ++ " is disabled."

/-- Embedding of the CallTool request handler (src/server.ts lines
323-470). The per-name Handler Bindings are abstracted as a map
`handlers` from tool name to settled outcome; a dispatch that reaches a
`case` of the switch invokes exactly that one handler. The enablement
throw happens before the `try` block (so it is not rewrapped). Each
`case` does a bare `return handleX(params)` of the asynchronous
handler's promise with no `await` inside the `try`, so a handler
rejection is adopted outside the try/catch and escapes the dispatcher
un-rewrapped (`.uncaught`) — the catch block never observes it. The
`default` case throws synchronously, a condition named
`UnknownToolError` with message `Unknown tool: <name>`, which the
`catch` block does intercept and rewrap. -/
def callToolHandler (config : Config) (handlers : String → HandlerOutcome)
    (name : String) : DispatchResult :=
  if !(isToolEnabled config name) then
    { outcome := .protocolError
        { code := -32601, message := disabledReason config name },
      invokedHandlers := [] }
  else if knownToolNames.contains name then
    match handlers name with
    | .ok r => { outcome := .success r, invokedHandlers := [name] }
    | .raise errName errMessage =>
      { outcome := .uncaught errName errMessage,
        invokedHandlers := [name] }
  else
    { outcome := .protocolError
        (rewrapCaughtError name "UnknownToolError" ("Unknown tool: " ++ name)),
      invokedHandlers := [] }

/-- Embedding of `formatTitleFromName` (src/server.ts lines 143-148):
split the name on underscore and hyphen, drop empty segments,
capitalize the first character of each segment, join with spaces. -/
def capitalizeSegment (s : String) : String :=
  match s.data with
  | [] => ""
  | c :: cs => String.mk (c.toUpper :: cs)

/-- Splitting a character list at every separator, keeping empty
segments, exactly as the JavaScript split-on-character-class does. -/
def splitChars (p : Char → Bool) : List Char → List (List Char)
  | [] => [[]]
  | c :: cs =>
    if p c then [] :: splitChars p cs
    else
      match splitChars p cs with
      | [] => [[c]]
      | h :: t => (c :: h) :: t

def joinWithSpace : List String → String
  | [] => ""
  | [s] => s
  | s :: rest => s ++ " " ++ joinWithSpace rest

def formatTitleFromName (name : String) : String :=
  joinWithSpace
    ((((splitChars (fun c => c == '_' || c == '-') name.data).map
        String.mk).filter (fun s => !s.data.isEmpty)).map capitalizeSegment)

/-- The per-character replacement in the generated property description
(src/server.ts line 159: key.replace underscore-to-space). -/
def replaceUnderscores (s : String) : String :=
  String.mk (s.data.map (fun c => if c == '_' then ' ' else c))

/-- The alternatives of the anchored read-only regex (src/server.ts line
177); the regex tests whether the tool name starts with one of them. -/
def readOnlyAlternatives : List String :=
  ["get_", "list_", "find_", "resolve_", "call_clickup_api",
   "get_workspace_hierarchy"]

def isReadOnlyName (name : String) : Bool :=
  readOnlyAlternatives.any (fun p => p.data.isPrefixOf name.data)

/-- A JSON value sitting in one property slot of `inputSchema.properties`.
The code only inspects whether it is a truthy object and whether it has
a `description` key (src/server.ts line 157), so an object is modelled
as its optional description plus its remaining key-value pairs (values
opaque), and everything else as an opaque tag. -/
inductive PropVal where
  | prim (tag : Nat)
  | obj (description : Option String) (rest : List (String × Nat))
deriving DecidableEq

/-- An object-valued `inputSchema`: optional `description` key, optional
`properties` key (an ordered key-value map), and all remaining schema
keys such as `type` and `required` kept opaque. -/
structure ObjSchema where
  description : Option String
  properties : Option (List (String × PropVal))
  rest : List (String × Nat)
deriving DecidableEq

/-- An arbitrary `inputSchema` value: absent/null (falsy), a truthy
non-object, or an object. -/
inductive SchemaVal where
  | missing
  | prim (tag : Nat)
  | obj (s : ObjSchema)
deriving DecidableEq

/-- The annotations object of a tool descriptor; each hint is `some`
exactly when the descriptor supplies it, and extra annotation keys are
kept opaque in `rest`. -/
structure AnnotationsRec where
  title : Option String
  readOnlyHint : Option Bool
  destructiveHint : Option Bool
  idempotentHint : Option Bool
  openWorldHint : Option Bool
  rest : List (String × Nat)
deriving DecidableEq

/-- A tool descriptor as consumed by `enhanceToolMetadata`: name,
optional description, optional annotations object, input schema, plus
any remaining descriptor keys kept opaque. -/
structure ToolRec where
  name : String
  description : Option String
  annotations : Option AnnotationsRec
  inputSchema : SchemaVal
  rest : List (String × Nat)
deriving DecidableEq

/-- One step of the `reduce` in `enhanceSchemaWithDescriptions`
(src/server.ts lines 156-166): a truthy object value without a
`description` key gains the generated description; every other value is
passed through unchanged. -/
def enhanceProp (key : String) (v : PropVal) : PropVal :=
  match v with
  | .obj none rest =>
    .obj (some ("Value for " ++ replaceUnderscores key)) rest
  | v => v

/-- Embedding of `enhanceSchemaWithDescriptions` (src/server.ts lines
150-173). A falsy or non-object schema is returned unchanged. For an
object schema, every property is passed through `enhanceProp`, the
schema-level description defaults to `<title> parameters` when absent,
and the returned object always carries a `properties` key (the source
spreads the input and then writes `properties:` explicitly, choosing
the enhanced map when the input map is non-empty and the original
(possibly defaulted-empty) map otherwise). -/
def enhanceSchemaWithDescriptions (schema : SchemaVal) (title : String) :
    SchemaVal :=
  match schema with
  | .missing => .missing
  | .prim t => .prim t
  | .obj s =>
    let properties := s.properties.getD []
    let enhancedProperties :=
      properties.map (fun kv => (kv.1, enhanceProp kv.1 kv.2))
    .obj { description := some (s.description.getD (title ++ " parameters")),
           properties :=
             some (if properties.length != 0 then enhancedProperties
                   else properties),
           rest := s.rest }

/-- Embedding of `enhanceToolMetadata` (src/server.ts lines 175-194).
The derived title is the descriptor's explicit annotation title when
present, else `formatTitleFromName name`; the four behavioral hints
default from the read-only inference but are overridden by any
explicitly present annotation values (the source spreads the defaults
first, then the descriptor's annotations); the description defaults to
`<title> tool`; the input schema is enhanced with the derived title. -/
def enhanceToolMetadata (tool : ToolRec) : ToolRec :=
  let toolTitle :=
    (tool.annotations.bind AnnotationsRec.title).getD
      (formatTitleFromName tool.name)
  let inferredReadOnly := isReadOnlyName tool.name
  let enhanced : AnnotationsRec :=
    { title := some ((tool.annotations.bind AnnotationsRec.title).getD toolTitle),
      readOnlyHint :=
        some ((tool.annotations.bind AnnotationsRec.readOnlyHint).getD
          inferredReadOnly),
      destructiveHint :=
        some ((tool.annotations.bind AnnotationsRec.destructiveHint).getD
          (!inferredReadOnly)),
      idempotentHint :=
        some ((tool.annotations.bind AnnotationsRec.idempotentHint).getD
          inferredReadOnly),
      openWorldHint :=
        some ((tool.annotations.bind AnnotationsRec.openWorldHint).getD
          (tool.name == "call_clickup_api")),
      rest := (tool.annotations.map AnnotationsRec.rest).getD [] }
  { tool with
    description := some (tool.description.getD (toolTitle ++ " tool")),
    annotations := some enhanced,
    inputSchema := enhanceSchemaWithDescriptions tool.inputSchema toolTitle }

/-- The process-lifetime configuration state of the server module: the
`isServerConfigured` flag (src/server.ts line 112) plus the sequence of
request-handler registrations performed so far. -/
structure ServerState where
  isServerConfigured : Bool
  registeredHandlers : List String
deriving DecidableEq

/-- Module-load state: the flag starts false and nothing is registered. -/
def initialServerState : ServerState :=
  { isServerConfigured := false, registeredHandlers := [] }

/-- The five request schemas `configureServer` registers handlers for,
in source order (src/server.ts lines 257, 312, 323, 472, 477). -/
def requestHandlerSchemas : List String :=
  ["ListToolsRequestSchema", "ListResourcesRequestSchema",
   "CallToolRequestSchema", "ListPromptsRequestSchema",
   "GetPromptRequestSchema"]

/-- Embedding of `configureServer` (src/server.ts lines 242-483) as a
transition on `ServerState`: an already-configured server is returned
unchanged (logged no-op); otherwise the flag is set and the five
protocol handlers are registered. -/
def configureServer (s : ServerState) : ServerState :=
  if s.isServerConfigured then s
  else
    { isServerConfigured := true,
      registeredHandlers := s.registeredHandlers ++ requestHandlerSchemas }

/-- The settlement record JavaScript `Promise.allSettled` produces for
one task. -/
inductive SettledResult where
  | fulfilled
  | rejected (reason : String)
deriving DecidableEq

/-- `Promise.allSettled` semantics: the combined promise always
fulfills, collecting every task's settlement. -/
def promiseAllSettled (tasks : List (Except String Unit)) :
    Except String (List SettledResult) :=
  .ok (tasks.map (fun t =>
    match t with
    | .ok _ => SettledResult.fulfilled
    | .error e => SettledResult.rejected e))

/-- Embedding of `prewarmClickUpCaches` (src/services/shared.ts):
it awaits `Promise.allSettled` over the workspace and task prewarm
tasks (whose outcomes are passed in as parameters) and then resolves;
a rejection of either task never escapes. -/
def prewarmClickUpCaches (workspacePrewarm taskPrewarm : Except String Unit) :
    Except String Unit :=
  match promiseAllSettled [workspacePrewarm, taskPrewarm] with
  | .ok _ => .ok ()
  | .error e => .error e

/-- The workspace-wide task cache mirrored by
`TaskService.prewarmCaches` (src/services/clickup/custom.ts). -/
structure TaskCache where
  tasks : List Nat
  lastFetch : Nat
deriving DecidableEq

/-- Embedding of `TaskService.prewarmCaches`: on a successful workspace
fetch the cache is hydrated; a fetch failure is caught and logged, the
cache is left alone, and the method still resolves. -/
def prewarmCaches (cache : TaskCache) (now : Nat)
    (fetchResult : Except String (List Nat)) : TaskCache × Except String Unit :=
  match fetchResult with
  | .ok tasks => ({ tasks := tasks, lastFetch := now }, .ok ())
  | .error _ => (cache, .ok ())

/-- The `.catch` attached to the prewarm kick-off in `configureServer`
(src/server.ts lines 252-254): any rejection is converted into a logged
warning and a resolved promise. -/
def prewarmKickoff (prewarmResult : Except String Unit) : Except String Unit :=
  match prewarmResult with
  | .ok _ => .ok ()
  | .error _ => .ok ()

/-- `configureServer` together with the unawaited prewarm it fires on
the first call: the returned server state is paired with the settled,
caught prewarm outcome, which flows nowhere else. -/
def configureServerWithPrewarm (s : ServerState)
    (workspacePrewarm taskPrewarm : Except String Unit) :
    ServerState × Except String Unit :=
  if s.isServerConfigured then (s, .ok ())
  else
    ({ isServerConfigured := true,
       registeredHandlers := s.registeredHandlers ++ requestHandlerSchemas },
     prewarmKickoff (prewarmClickUpCaches workspacePrewarm taskPrewarm))

/-- Substring test over the underlying character lists, used to state
claims of the form: the message contains the text T. -/
def listHasSubstr : List Char → List Char → Bool
  | [], sub => sub.isEmpty
  | c :: rest, sub => sub.isPrefixOf (c :: rest) || listHasSubstr rest sub

def strHasSubstr (s sub : String) : Bool :=
  listHasSubstr s.data sub.data

end ClickUpServer

namespace ClickUpServer

/-- C1: if `enabledTools` is non-empty, `isToolEnabled n` is true iff `n`
is a member of `enabledTools` (whatever `disabledTools` holds); else if
`disabledTools` is non-empty, true iff `n` is not a member of
`disabledTools`; else true. -/
theorem isToolEnabled_cases (config : Config) (n : String) :
    (config.enabledTools ≠ [] →
      (isToolEnabled config n = true ↔ n ∈ config.enabledTools)) ∧
    (config.enabledTools = [] → config.disabledTools ≠ [] →
      (isToolEnabled config n = true ↔ n ∉ config.disabledTools)) ∧
    (config.enabledTools = [] → config.disabledTools = [] →
      isToolEnabled config n = true) := by
  obtain ⟨e, d⟩ := config
  refine ⟨?_, ?_, ?_⟩
  · intro he
    have hlen : 0 < e.length := List.length_pos.mpr he
    simp [isToolEnabled, hlen]
  · intro he hd
    have hlen : 0 < d.length := List.length_pos.mpr hd
    subst he
    simp [isToolEnabled, hlen]
  · intro he hd
    subst he; subst hd
    simp [isToolEnabled]

/-- Concrete instantiation of `isToolEnabled_cases`: with
`enabledTools = [a, b]` and `disabledTools = [a]`, the tool `a` is still
enabled (allow-list suppresses the deny-list). -/
theorem isToolEnabled_cases_witness :
    isToolEnabled ⟨["a", "b"], ["a"]⟩ "a" = true := by
  have h := (isToolEnabled_cases ⟨["a", "b"], ["a"]⟩ "a").1 (by decide)
  exact h.mpr (by decide)

/-- C3: a dispatch for a name that fails the enablement check throws
code -32601 with no handler invoked; the message reads
`Tool (quote)n(quote) is not in the enabled tools list.` when
`enabledTools` is non-empty, and `Tool (quote)n(quote) is disabled.`
otherwise. -/
theorem callTool_blocked (config : Config) (handlers : String → HandlerOutcome)
    (name : String) (h : isToolEnabled config name = false) :
    callToolHandler config handlers name =
      { outcome := .protocolError
          { code := -32601, message := disabledReason config name },
        invokedHandlers := [] } ∧
    (config.enabledTools ≠ [] →
      disabledReason config name =
        "Tool " ++ sq ++ name ++ sq ++ " is not in the enabled tools list.") ∧
    (config.enabledTools = [] →
      disabledReason config name =
        "Tool " ++ sq ++ name ++ sq ++ " is disabled.") := by
  refine ⟨by simp [callToolHandler, h], ?_, ?_⟩
  · intro he
    have hlen : 0 < config.enabledTools.length := List.length_pos.mpr he
    simp [disabledReason, hlen]
  · intro he
    simp [disabledReason, he]

/-- Concrete instantiation of `callTool_blocked`: with
`enabledTools = [get_task]`, invoking `create_task` is blocked with
code -32601 before its handler runs. -/
theorem callTool_blocked_witness :
    callToolHandler ⟨["get_task"], []⟩ (fun _ => HandlerOutcome.ok 0)
        "create_task" =
      { outcome := .protocolError
          { code := -32601,
            message := disabledReason ⟨["get_task"], []⟩ "create_task" },
        invokedHandlers := [] } :=
  (callTool_blocked ⟨["get_task"], []⟩ (fun _ => HandlerOutcome.ok 0)
    "create_task" (by decide)).1

/-- C2 as stated is false: invoking the unregistered, enabled name
`not_a_real_tool` (both lists empty) does throw code -32601, but the
thrown protocol error's message is `Method not found: not_a_real_tool`,
which does not contain the text `Unknown tool: not_a_real_tool`
(sanity conjunct: the substring test does find `not found` there). -/
theorem callTool_unknown_counterexample :
    callToolHandler ⟨[], []⟩ (fun _ => HandlerOutcome.ok 0) "not_a_real_tool" =
      { outcome := .protocolError
          { code := -32601, message := "Method not found: not_a_real_tool" },
        invokedHandlers := [] } ∧
    strHasSubstr "Method not found: not_a_real_tool"
      "Unknown tool: not_a_real_tool" = false ∧
    strHasSubstr "Method not found: not_a_real_tool" "not found" = true := by
  refine ⟨by decide, by decide, by decide⟩

/-- C2 amended: invoking an enabled name with no `case` in the dispatch
switch throws code -32601 with message `Method not found: <n>` and
invokes no handler; the internally raised condition does carry message
`Unknown tool: <n>`, but the catch-block rewrap replaces that message. -/
theorem callTool_unknown_amended (config : Config)
    (handlers : String → HandlerOutcome) (name : String)
    (henabled : isToolEnabled config name = true)
    (hunknown : knownToolNames.contains name = false) :
    callToolHandler config handlers name =
      { outcome := .protocolError
          { code := -32601, message := "Method not found: " ++ name },
        invokedHandlers := [] } ∧
    rewrapCaughtError name "UnknownToolError" ("Unknown tool: " ++ name) =
      { code := -32601, message := "Method not found: " ++ name } := by
  have hmem : name ∉ knownToolNames := by simpa using hunknown
  constructor
  · simp [callToolHandler, henabled, hmem, rewrapCaughtError]
  · simp [rewrapCaughtError]

/-- Concrete instantiation of `callTool_unknown_amended` at
`not_a_real_tool` with both lists empty. -/
theorem callTool_unknown_amended_witness :
    callToolHandler ⟨[], []⟩ (fun _ => HandlerOutcome.ok 5) "not_a_real_tool" =
      { outcome := .protocolError
          { code := -32601, message := "Method not found: not_a_real_tool" },
        invokedHandlers := [] } :=
  (callTool_unknown_amended ⟨[], []⟩ (fun _ => HandlerOutcome.ok 5)
    "not_a_real_tool" (by decide) (by decide)).1

/-- C4: the claim matches the evident intent of the source's own catch
block, but not the code's behavior. The switch returns each
asynchronous handler's promise without awaiting it inside the try
block, so a handler rejection bypasses the catch and escapes the
dispatcher un-rewrapped. At the failing input — both lists empty,
invoking the registered tool `create_task` whose handler rejects with a
condition named `ValidationError` and message `bad input` — the
dispatch outcome is the escaped raw condition, which differs from the
claimed protocol error -32602 `Invalid params for tool create_task: bad
input`; a non-`ValidationError` rejection likewise escapes instead of
becoming -32000. The final conjunct evaluates the catch-block rewrap
the source carries for exactly this case, showing the claimed -32602
wrapping is what that (unreachable-for-handler-failures) code would
produce. -/
theorem handlerRejection_escapes :
    (callToolHandler ⟨[], []⟩
        (fun _ => HandlerOutcome.raise "ValidationError" "bad input")
        "create_task").outcome =
      .uncaught "ValidationError" "bad input" ∧
    CallOutcome.uncaught "ValidationError" "bad input" ≠
      CallOutcome.protocolError
        { code := -32602,
          message := "Invalid params for tool create_task: bad input" } ∧
    (callToolHandler ⟨[], []⟩
        (fun _ => HandlerOutcome.raise "ClickUpServiceError" "boom")
        "create_task").outcome =
      .uncaught "ClickUpServiceError" "boom" ∧
    CallOutcome.uncaught "ClickUpServiceError" "boom" ≠
      CallOutcome.protocolError
        { code := -32000, message := "Error executing tool create_task: boom" } ∧
    rewrapCaughtError "create_task" "ValidationError" "bad input" =
      { code := -32602,
        message := "Invalid params for tool create_task: bad input" } := by
  refine ⟨by decide, by decide, by decide, by decide, by decide⟩

/-- The read-only inference exactly as the claim words it: one of the
four underscore prefixes, or a name equal to `call_clickup_api` or to
`get_workspace_hierarchy`. Stated from the claim, to be compared with
`isReadOnlyName`, which is traced from the source regex. -/
def specInferredReadOnly (name : String) : Bool :=
  (["get_", "list_", "find_", "resolve_"].any
      (fun p => p.data.isPrefixOf name.data))
    || name == "call_clickup_api" || name == "get_workspace_hierarchy"

/-- Helper: the non-empty-check branch of the enhanced properties map
collapses, because mapping over the empty map is the empty map. -/
theorem mapEnhance_branch (ps : List (String × PropVal)) :
    (if ps.length != 0 then ps.map (fun kv => (kv.1, enhanceProp kv.1 kv.2))
     else ps) = ps.map (fun kv => (kv.1, enhanceProp kv.1 kv.2)) := by
  cases ps <;> simp

theorem enhanceProp_enhanceProp (k : String) (v : PropVal) :
    enhanceProp k (enhanceProp k v) = enhanceProp k v := by
  cases v with
  | prim t => rfl
  | obj d r => cases d <;> rfl

theorem mapEnhance_idem (ps : List (String × PropVal)) :
    (ps.map (fun kv => (kv.1, enhanceProp kv.1 kv.2))).map
        (fun kv => (kv.1, enhanceProp kv.1 kv.2)) =
      ps.map (fun kv => (kv.1, enhanceProp kv.1 kv.2)) := by
  induction ps with
  | nil => rfl
  | cons kv t ih => simp [ih, enhanceProp_enhanceProp]

theorem keys_mapEnhance (ps : List (String × PropVal)) :
    (ps.map (fun kv => (kv.1, enhanceProp kv.1 kv.2))).map Prod.fst =
      ps.map Prod.fst := by
  induction ps with
  | nil => rfl
  | cons kv t ih => simp [ih]

/-- Schema enhancement absorbs a second pass, whatever title the second
pass receives: after one pass the schema-level description and every
injectable property description are present. -/
theorem enhanceSchemaWithDescriptions_idem (schema : SchemaVal)
    (t1 t2 : String) :
    enhanceSchemaWithDescriptions (enhanceSchemaWithDescriptions schema t1) t2 =
      enhanceSchemaWithDescriptions schema t1 := by
  cases schema with
  | missing => rfl
  | prim t => rfl
  | obj s =>
    obtain ⟨d, props, rest⟩ := s
    simp only [enhanceSchemaWithDescriptions, mapEnhance_branch]
    simp
    intro a b _
    exact enhanceProp_enhanceProp a b

/-- C5 as stated is false: the source tests the read-only alternatives
as prefixes of the name, so the descriptor named `call_clickup_api2`
(no explicit annotations) is inferred read-only
(`readOnlyHint = some true`), although it neither equals
`call_clickup_api` or `get_workspace_hierarchy` nor carries one of the
four underscore prefixes, so the claim's characterization labels it not
read-only. -/
theorem readOnly_inference_counterexample :
    ((enhanceToolMetadata
        { name := "call_clickup_api2", description := none,
          annotations := none, inputSchema := .missing,
          rest := [] }).annotations.bind AnnotationsRec.readOnlyHint) =
      some true ∧
    isReadOnlyName "call_clickup_api2" = true ∧
    specInferredReadOnly "call_clickup_api2" = false := by
  refine ⟨by decide, by decide, by decide⟩

/-- C5 amended: a descriptor is inferred read-only iff its name starts
with one of `get_`, `list_`, `find_`, `resolve_`, `call_clickup_api`,
`get_workspace_hierarchy` (all matched as prefixes); the output
annotations default to `readOnlyHint = isReadOnly`,
`destructiveHint = not isReadOnly`, `idempotentHint = isReadOnly`,
`openWorldHint = (name equals call_clickup_api)`, and any annotation
value explicitly present on the descriptor overrides the corresponding
inferred default. -/
theorem enhanceToolMetadata_hint_defaults (tool : ToolRec) :
    (isReadOnlyName tool.name = true ↔
      ∃ p ∈ readOnlyAlternatives, p.data.isPrefixOf tool.name.data = true) ∧
    ((enhanceToolMetadata tool).annotations.bind AnnotationsRec.readOnlyHint =
      some ((tool.annotations.bind AnnotationsRec.readOnlyHint).getD
        (isReadOnlyName tool.name))) ∧
    ((enhanceToolMetadata tool).annotations.bind AnnotationsRec.destructiveHint =
      some ((tool.annotations.bind AnnotationsRec.destructiveHint).getD
        (!(isReadOnlyName tool.name)))) ∧
    ((enhanceToolMetadata tool).annotations.bind AnnotationsRec.idempotentHint =
      some ((tool.annotations.bind AnnotationsRec.idempotentHint).getD
        (isReadOnlyName tool.name))) ∧
    ((enhanceToolMetadata tool).annotations.bind AnnotationsRec.openWorldHint =
      some ((tool.annotations.bind AnnotationsRec.openWorldHint).getD
        (tool.name == "call_clickup_api"))) ∧
    (∀ a b, tool.annotations = some a → a.readOnlyHint = some b →
      (enhanceToolMetadata tool).annotations.bind AnnotationsRec.readOnlyHint =
        some b) ∧
    (tool.annotations = none →
      (enhanceToolMetadata tool).annotations.bind AnnotationsRec.readOnlyHint =
        some (isReadOnlyName tool.name)) := by
  refine ⟨?_, rfl, rfl, rfl, rfl, ?_, ?_⟩
  · simp [isReadOnlyName, List.any_eq_true]
  · intro a b ha hb
    simp [enhanceToolMetadata, ha, hb]
  · intro ha
    simp [enhanceToolMetadata, ha]

/-- Concrete instantiation of `enhanceToolMetadata_hint_defaults`: an
explicit `readOnlyHint = true` on the non-read-only name `create_task`
survives enhancement (override beats inference). -/
theorem enhanceToolMetadata_hint_defaults_witness :
    ((enhanceToolMetadata
        { name := "create_task", description := none,
          annotations := some
            { title := none, readOnlyHint := some true,
              destructiveHint := none, idempotentHint := none,
              openWorldHint := none, rest := [] },
          inputSchema := .missing,
          rest := [] }).annotations.bind AnnotationsRec.readOnlyHint) =
      some true :=
  (enhanceToolMetadata_hint_defaults
      { name := "create_task", description := none,
        annotations := some
          { title := none, readOnlyHint := some true,
            destructiveHint := none, idempotentHint := none,
            openWorldHint := none, rest := [] },
        inputSchema := .missing,
        rest := [] }).2.2.2.2.2.1 _ true rfl rfl

/-- C6: metadata enhancement is idempotent — enhancing an
already-enhanced descriptor changes nothing: descriptions, annotations
and injected schema property descriptions are not prefixed or altered a
second time. -/
theorem enhanceToolMetadata_idempotent (tool : ToolRec) :
    enhanceToolMetadata (enhanceToolMetadata tool) = enhanceToolMetadata tool := by
  obtain ⟨name, desc, anns, schema, rest⟩ := tool
  simp [enhanceToolMetadata, enhanceSchemaWithDescriptions_idem]

/-- Concrete instantiation of `enhanceToolMetadata_idempotent` on the
`call_clickup_api` descriptor shape. -/
theorem enhanceToolMetadata_idempotent_witness :
    enhanceToolMetadata (enhanceToolMetadata
        { name := "call_clickup_api", description := none,
          annotations := none,
          inputSchema := .obj
            { description := none,
              properties := some [("method", .obj none [])],
              rest := [] },
          rest := [] }) =
      enhanceToolMetadata
        { name := "call_clickup_api", description := none,
          annotations := none,
          inputSchema := .obj
            { description := none,
              properties := some [("method", .obj none [])],
              rest := [] },
          rest := [] } :=
  enhanceToolMetadata_idempotent _

/-- C7: for an object schema with title `t`, every property lacking a
description receives `Value for <key with underscores replaced by
spaces>`, every property with an existing description and every
non-object property value passes through unchanged, the schema-level
description defaults to `<t> parameters` only when absent, and a
missing or non-object schema is returned unchanged. -/
theorem enhanceSchemaWithDescriptions_spec (s : ObjSchema) (title : String)
    (t : Nat) :
    enhanceSchemaWithDescriptions .missing title = .missing ∧
    enhanceSchemaWithDescriptions (.prim t) title = .prim t ∧
    enhanceSchemaWithDescriptions (.obj s) title =
      .obj { description := some (s.description.getD (title ++ " parameters")),
             properties := some ((s.properties.getD []).map
               (fun kv => (kv.1, enhanceProp kv.1 kv.2))),
             rest := s.rest } ∧
    (∀ k r, enhanceProp k (.obj none r) =
      .obj (some ("Value for " ++ replaceUnderscores k)) r) ∧
    (∀ k d r, enhanceProp k (.obj (some d) r) = .obj (some d) r) ∧
    (∀ k t2, enhanceProp k (.prim t2) = .prim t2) := by
  refine ⟨rfl, rfl, ?_, fun k r => rfl, fun k d r => rfl, fun k t2 => rfl⟩
  simp only [enhanceSchemaWithDescriptions, mapEnhance_branch]

/-- Concrete instantiation of `enhanceSchemaWithDescriptions_spec`: the
`task_id` property (no description) of a `Create Task` schema gains
`Value for task id`, and the other fields survive. -/
theorem enhanceSchemaWithDescriptions_spec_witness :
    enhanceSchemaWithDescriptions
        (.obj { description := none,
                properties := some [("task_id", .obj none [("kind", 2)])],
                rest := [("type", 0)] }) "Create Task" =
      .obj { description := some "Create Task parameters",
             properties :=
               some [("task_id", .obj (some "Value for task id") [("kind", 2)])],
             rest := [("type", 0)] } :=
  ((enhanceSchemaWithDescriptions_spec
      { description := none,
        properties := some [("task_id", PropVal.obj none [("kind", 2)])],
        rest := [("type", 0)] } "Create Task" 0).2.2.1).trans (by decide)

/-- C10 as stated is false: for an object schema that has no
`properties` key at all, the enhanced schema nevertheless carries a
`properties` key (holding the empty map), so a schema-level field other
than a description is added. -/
theorem enhanceSchema_frame_counterexample :
    enhanceSchemaWithDescriptions
        (.obj { description := none, properties := none,
                rest := [("type", 7)] }) "Task" =
      .obj { description := some "Task parameters", properties := some [],
             rest := [("type", 7)] } ∧
    (({ description := none, properties := none,
        rest := [("type", 7)] } : ObjSchema)).properties ≠
      (({ description := some "Task parameters", properties := some [],
          rest := [("type", 7)] } : ObjSchema)).properties := by
  refine ⟨by decide, by decide⟩

/-- C10 amended: schema enhancement is frame-preserving up to the
materialized `properties` key — the enhanced object schema has exactly
the input's property keys in order, untouched remaining schema-level
fields, the defaulted-or-kept description, and per-property it only adds
a description to object values lacking one (non-object values and the
property's other fields are untouched); a schema whose `properties` key
is absent gains an empty `properties` map. -/
theorem enhanceSchemaWithDescriptions_frame (s : ObjSchema) (title : String) :
    ∃ s1, enhanceSchemaWithDescriptions (.obj s) title = .obj s1 ∧
      s1.rest = s.rest ∧
      (s1.properties.getD []).map Prod.fst =
        (s.properties.getD []).map Prod.fst ∧
      s1.description = some (s.description.getD (title ++ " parameters")) ∧
      (s.properties = none → s1.properties = some []) ∧
      (∀ ps, s.properties = some ps →
        s1.properties = some (ps.map (fun kv => (kv.1, enhanceProp kv.1 kv.2)))) ∧
      (∀ k t2, enhanceProp k (.prim t2) = .prim t2) ∧
      (∀ k d r, enhanceProp k (.obj (some d) r) = .obj (some d) r) ∧
      (∀ k r, ∃ g, enhanceProp k (.obj none r) = .obj (some g) r) := by
  refine ⟨{ description := some (s.description.getD (title ++ " parameters")),
            properties := some ((s.properties.getD []).map
              (fun kv => (kv.1, enhanceProp kv.1 kv.2))),
            rest := s.rest },
          ?_, rfl, keys_mapEnhance _, rfl, ?_, ?_, fun k t2 => rfl,
          fun k d r => rfl, fun k r => ⟨_, rfl⟩⟩
  · simp only [enhanceSchemaWithDescriptions, mapEnhance_branch]
  · intro h
    simp [h]
  · intro ps h
    simp [h]

/-- Concrete instantiation of `enhanceSchemaWithDescriptions_frame`:
a one-property schema keeps its `required` field and its key list. -/
theorem enhanceSchemaWithDescriptions_frame_witness :
    ∃ s1, enhanceSchemaWithDescriptions
        (.obj { description := some "d",
                properties := some [("a_b", .prim 3)],
                rest := [("required", 1)] }) "T" = .obj s1 ∧
      s1.rest = [("required", 1)] ∧
      s1.properties = some [("a_b", PropVal.prim 3)] := by
  obtain ⟨s1, h1, h2, h3, h4, h5, h6, h7, h8, h9⟩ :=
    enhanceSchemaWithDescriptions_frame
      { description := some "d", properties := some [("a_b", PropVal.prim 3)],
        rest := [("required", 1)] } "T"
  exact ⟨s1, h1, h2, (h6 [("a_b", PropVal.prim 3)] rfl).trans (by decide)⟩

/-- C8: the configured flag is false at module load; the first
`configureServer` call sets it and registers the five protocol handlers
exactly once; a call on an already-configured state is the identity
(so handlers are never re-registered and the flag never returns to
false), and any positive number of calls from the initial state leaves
exactly one registration of each handler. -/
theorem configureServer_idempotent :
    initialServerState.isServerConfigured = false ∧
    configureServer initialServerState =
      { isServerConfigured := true,
        registeredHandlers := requestHandlerSchemas } ∧
    (∀ s, s.isServerConfigured = true → configureServer s = s) ∧
    (∀ s, (configureServer s).isServerConfigured = true) ∧
    (∀ n, configureServer^[n + 1] initialServerState =
      { isServerConfigured := true,
        registeredHandlers := requestHandlerSchemas }) := by
  refine ⟨rfl, rfl, ?_, ?_, ?_⟩
  · intro s h
    simp [configureServer, h]
  · intro s
    by_cases h : s.isServerConfigured <;> simp [configureServer, h]
  · intro n
    induction n with
    | zero => rfl
    | succ n ih =>
      rw [Function.iterate_succ_apply', ih]
      rfl

/-- Concrete instantiation of `configureServer_idempotent`: configuring
an already-configured server changes nothing. -/
theorem configureServer_idempotent_witness :
    configureServer
        { isServerConfigured := true, registeredHandlers := ["h"] } =
      { isServerConfigured := true, registeredHandlers := ["h"] } :=
  configureServer_idempotent.2.2.1 _ rfl

/-- C9: the background cache prewarm always settles successfully at the
`Promise.allSettled` barrier, `TaskService.prewarmCaches` absorbs its
fetch failure internally (still resolving, leaving the cache alone), the
kick-off `.catch` absorbs any remaining rejection, and the server state
produced by configuration is the same whatever the prewarm outcomes are
— no prewarm failure reaches any client-visible result. -/
theorem prewarm_failure_absorbed (s : ServerState)
    (workspacePrewarm taskPrewarm : Except String Unit)
    (cache : TaskCache) (now : Nat)
    (fetchResult : Except String (List Nat)) :
    prewarmClickUpCaches workspacePrewarm taskPrewarm = .ok () ∧
    (prewarmCaches cache now fetchResult).2 = .ok () ∧
    prewarmKickoff (prewarmClickUpCaches workspacePrewarm taskPrewarm) =
      .ok () ∧
    (configureServerWithPrewarm s workspacePrewarm taskPrewarm).1 =
      configureServer s ∧
    (∀ wp2 tp2,
      configureServerWithPrewarm s workspacePrewarm taskPrewarm =
        configureServerWithPrewarm s wp2 tp2) := by
  refine ⟨rfl, ?_, rfl, ?_, ?_⟩
  · cases fetchResult <;> rfl
  · by_cases h : s.isServerConfigured <;>
      simp [configureServerWithPrewarm, configureServer, h]
  · intro wp2 tp2
    by_cases h : s.isServerConfigured <;>
      simp [configureServerWithPrewarm, h, prewarmKickoff,
        prewarmClickUpCaches, promiseAllSettled]

/-- Concrete instantiation of `prewarm_failure_absorbed`: even when both
prewarm tasks reject, the combined prewarm resolves and configuration
produces the ordinary configured state. -/
theorem prewarm_failure_absorbed_witness :
    prewarmClickUpCaches (.error "network down") (.error "rate limited") =
      .ok () ∧
    (configureServerWithPrewarm initialServerState (.error "network down")
        (.error "rate limited")).1 = configureServer initialServerState :=
  ⟨(prewarm_failure_absorbed initialServerState (.error "network down")
      (.error "rate limited") ⟨[], 0⟩ 0 (.ok [])).1,
   (prewarm_failure_absorbed initialServerState (.error "network down")
      (.error "rate limited") ⟨[], 0⟩ 0 (.ok [])).2.2.2.1⟩

end ClickUpServer
